import Mathlib

/-!
Shallow embedding of `src/freshext.py` (freshrss-ext-manager), the FreshRSS
extension manager: catalog/descriptor data model, package-id derivation,
catalog loading, installed-set scanning, reconciliation, the install/upgrade
orchestrator, and the permission reconciler.

Conventions of the embedding:
* Python/JSON scalar values that flow through the untyped fields are modelled
  by `PyVal`.  A float is carried by its Python `repr`/`str` string (Python's
  `str` of a float is its shortest round-trip decimal form); `str()` of such a
  value simply returns that string.
* Python `assert` failures, `AttributeError` on a missing required dataclass
  field, JSON decode errors and subprocess failures are all modelled as
  `Except Err` error results (the spec's error taxonomy).
* The filesystem is a map from a package directory name to what the relevant
  checks of the program observe of it (`DirState`); external collaborators
  (git subprocesses, `chown`, `shutil.copytree`, file reads on the scratch
  clone) are oracles supplied as explicit parameters, exactly as the spec
  designates them external.
-/

/-- A Python/JSON scalar value as it appears in the untyped metadata fields.
`vfloat r` is a float carried by its `repr`/`str` string `r` (e.g. `"0.1"`,
`"1.5"`).  Cross-type numeric equality (`1 == 1.0`) never arises at the
comparison points of this program (normalized versions are never numeric), so
equality of `PyVal`s is structural. -/
inductive PyVal where
  | vstr (s : String)
  | vint (n : Int)
  | vfloat (r : String)
  | vnone
deriving DecidableEq, Repr

/-- Python truthiness of a `PyVal`: empty string, zero and `None` are falsy.
For a float carried by its repr, the zero floats are exactly those whose repr
is `"0.0"` or `"-0.0"`. -/
def PyVal.truthy : PyVal → Bool
  | .vstr s => !(s == "")
  | .vint n => !(n == 0)
  | .vfloat r => !(r == "0.0") && !(r == "-0.0")
  | .vnone => false

/-- Python `str()` of a `PyVal` (used by f-string interpolation and by the
`str(self.version)` normalization). -/
def PyVal.pyStr : PyVal → String
  | .vstr s => s
  | .vint n => toString n
  | .vfloat r => r
  | .vnone => "None"

/-- `str(x)` applied when `isinstance(x, (int, float))`, identity otherwise:
the version-normalization step shared by `Metadata.__post_init__` and
`Repo.__post_init__`. -/
def PyVal.normNum : PyVal → PyVal
  | .vint n => .vstr (toString n)
  | .vfloat r => .vstr r
  | v => v

/-- Error taxonomy (spec section 7); Python-side these are `AssertionError`,
`AttributeError`, JSON decode errors and subprocess `CalledProcessError`. -/
inductive Err where
  | schemaVersion
  | notFound
  | alreadyInstalled
  | unsupportedMethod
  | gitOp
  | versionResolution
  | validation
  | jsonDecode
  | pkgName
deriving DecidableEq, Repr

/-- `True` on `.ok`, `False` on `.error`. -/
def isOkE {ε α : Type} : Except ε α → Bool
  | .ok _ => true
  | .error _ => false

/-- The raw JSON mapping fed to `Metadata(**r_json)`: each known field either
absent from the mapping or bound to a scalar.  Unknown keys of the mapping are
skipped by the constructor loop and hence not represented. -/
structure RawMeta where
  name : Option PyVal := none
  entrypoint : Option PyVal := none
  author : Option PyVal := none
  description : Option PyVal := none
  version : Option PyVal := none
  type : Option PyVal := none
deriving DecidableEq, Repr

/-- A constructed `Metadata` record.  Fields with dataclass defaults read as
`None` (`vnone`) when the key was absent. -/
structure Metadata where
  name : PyVal
  entrypoint : PyVal
  author : PyVal := .vnone
  description : PyVal := .vnone
  version : PyVal := .vnone
  type : PyVal := .vnone
deriving DecidableEq, Repr

/-- `Metadata.__init__` + `__post_init__`: set the supplied known fields, then
`assert self.name and self.entrypoint` (a missing `name`/`entrypoint` raises
`AttributeError`, likewise a failure), then
`assert self.type in [ 'system', 'user'] if self.type else True`
(note: skipped entirely when `type` is falsy, e.g. the empty string), then
normalize a truthy numeric `version` with `str()`. -/
def Metadata.parse (raw : RawMeta) : Option Metadata :=
  match raw.name, raw.entrypoint with
  | some nm, some ep =>
    if nm.truthy && ep.truthy then
      let ty := raw.type.getD .vnone
      if (if ty.truthy then ty == PyVal.vstr "system" || ty == PyVal.vstr "user" else true) then
        let ver := raw.version.getD .vnone
        let ver := if ver.truthy then ver.normNum else ver
        some { name := nm, entrypoint := ep, author := raw.author.getD .vnone,
               description := raw.description.getD .vnone, version := ver,
               type := ty }
      else none
    else none
  | _, _ => none

/-- The worker of Python's `str.split(sep)` for a non-empty separator, over
character lists: scan one character at a time; where `sep` matches, close the
current (reversed) token `acc` and skip the rest of the separator via the
countdown argument. -/
def pySplitGo (sep : List Char) : List Char → Nat → List Char → List (List Char)
  | [], _, acc => [acc.reverse]
  | _ :: cs, Nat.succ skip, acc => pySplitGo sep cs skip acc
  | c :: cs, 0, acc =>
    if sep.isPrefixOf (c :: cs) then acc.reverse :: pySplitGo sep cs (sep.length - 1) []
    else pySplitGo sep cs 0 (c :: acc)

/-- Python's `s.split(sep)` for a non-empty `sep`, over character lists:
keeps empty tokens, e.g. splitting `""` yields `[""]` and splitting `"."` on
`"."` yields `["", ""]`. -/
def pySplitChars (sep cs : List Char) : List (List Char) :=
  pySplitGo sep cs 0 []

/-- Split a character list at the FIRST occurrence of `sep`: `some (pre,
post)` with the text before and after that occurrence, `none` when `sep` does
not occur. -/
def pyBreakOn (sep : List Char) : List Char → Option (List Char × List Char)
  | [] => none
  | c :: cs =>
    if sep.isPrefixOf (c :: cs) then some ([], cs.drop (sep.length - 1))
    else
      match pyBreakOn sep cs with
      | none => none
      | some (pre, post) => some (c :: pre, post)

/-- Python's `s.removesuffix('/')`: drop one trailing slash if present. -/
def pyRemoveSuffixSlash (s : String) : String :=
  if s.data.getLast? = some '/' then String.mk s.data.dropLast else s

/-- Python's `s.startswith(pre)`. -/
def pyStartsWith (s pre : String) : Bool :=
  pre.data.isPrefixOf s.data

/-- Model of `urllib.parse.urlparse(url).path` for the URL shapes the catalog
uses: an optional fragment after the first `#` and query after the first `?`
are cut off, and for an absolute URL of shape scheme, `://`, netloc, path the
path is the first `/` after the netloc and everything following it (empty when
the netloc is not followed by `/`); a string without `://` is all path. -/
def urlparsePath (url : String) : String :=
  let cs := url.data
  let cs := match pyBreakOn ['#'] cs with | some (pre, _) => pre | none => cs
  let cs := match pyBreakOn ['?'] cs with | some (pre, _) => pre | none => cs
  match pyBreakOn [':', '/', '/'] cs with
  | none => String.mk cs
  | some (_, rest) =>
    match pyBreakOn ['/'] rest with
    | none => ""
    | some (_, segs) => String.mk ('/' :: segs)

/-- `Repo._generate_pkg_name`: take the URL path, `removesuffix('/')`, then
use `directory` verbatim when it starts with `"xExtension-"`, else the path's
last `/`-segment cut at the first `.` (Python
`url_path.split('/')[-1].split('.')[0]`); then
`assert pkg_name and pkg_name != "."`. -/
def generatePkgName (url directory : String) : Except Err String :=
  let url_path := urlparsePath url
  let url_path := pyRemoveSuffixSlash url_path
  let pkg_name :=
    if pyStartsWith directory "xExtension-" then directory
    else String.mk ((pySplitChars ['.'] ((pySplitChars ['/'] url_path.data).getLastD [])).headD [])
  if pkg_name = "" ∨ pkg_name = "." then .error .pkgName else .ok pkg_name

/-- What the program observes of a candidate extension directory `d`:
whether `d/metadata.json` exists (`hasMeta`), whether `d/extension.php`
exists (`hasMain`), and — when the descriptor exists — its JSON content
(`meta = some raw` when the file decodes to the mapping `raw`, `none` when
`json.load` fails on it). -/
structure DirState where
  hasMeta : Bool := false
  hasMain : Bool := false
  meta : Option RawMeta := none
deriving DecidableEq, Repr

/-- The local working directory, keyed by package directory name. -/
def FS : Type := String → DirState

/-- `read_local_meta(ext_dir)`: `json.load` the descriptor then construct
`Metadata` from it; either stage failing raises. -/
def readLocalMetaFS (fs : FS) (pkg : String) : Except Err Metadata :=
  match (fs pkg).meta with
  | none => .error .jsonDecode
  | some raw =>
    match Metadata.parse raw with
    | none => .error .validation
    | some m => .ok m

/-- One raw row of `extensions.json` (`r_json['extensions']`), restricted to
the keys `Repo.__init__` keeps; the catalog schema carries these as strings
except `version`, which may also be numeric. -/
structure RawRepo where
  name : String := ""
  author : String := ""
  description : String := ""
  version : PyVal := .vnone
  entrypoint : String := ""
  type : String := ""
  url : String := ""
  method : String := ""
  directory : String := ""
deriving DecidableEq, Repr

/-- A constructed `Repo` record after `__post_init__`. -/
structure Repo where
  name : String
  author : String
  description : String
  version : PyVal
  entrypoint : String
  type : String
  url : String
  method : String
  directory : String
  pkg_name : String
  installed : Bool
  installed_version : PyVal
deriving DecidableEq, Repr

/-- `Repo.__init__` + `__post_init__`: derive `pkg_name`
(`_generate_pkg_name`), set the `installed` flag from the two file-existence
checks (`_set_installed_flag`), normalize a numeric `version` with `str()`,
and, when installed, read the local descriptor to populate
`installed_version` (`_set_installed_version`, which re-parses the on-disk
descriptor and fails when it is invalid). -/
def Repo.mkE (fs : FS) (raw : RawRepo) : Except Err Repo :=
  match generatePkgName raw.url raw.directory with
  | .error e => .error e
  | .ok pkg =>
    let installed := (fs pkg).hasMeta && (fs pkg).hasMain
    let version := raw.version.normNum
    let base : Repo :=
      { name := raw.name, author := raw.author, description := raw.description,
        version := version, entrypoint := raw.entrypoint, type := raw.type,
        url := raw.url, method := raw.method, directory := raw.directory,
        pkg_name := pkg, installed := installed, installed_version := .vnone }
    if installed then
      match readLocalMetaFS fs pkg with
      | .error e => .error e
      | .ok m => .ok { base with installed_version := m.version }
    else .ok base

/-- Effectful map over a list in the `Except` monad, mirroring a Python list
comprehension: the first element that raises aborts the whole construction. -/
def mapE {α β : Type} (f : α → Except Err β) : List α → Except Err (List β)
  | [] => .ok []
  | x :: xs =>
    match f x with
    | .error e => .error e
    | .ok y =>
      match mapE f xs with
      | .error e => .error e
      | .ok ys => .ok (y :: ys)

/-- The decoded `extensions.json` document: a format version tag and the raw
entry rows. -/
structure Registry where
  version : PyVal
  extensions : List RawRepo

/-- `read_pkg_repos(pkg_name_fillter)`: `assert r_json['version'] == 0.1`,
construct a `Repo` from every row, filter by `pkg_name` when the filter is a
truthy (non-empty) string, and `assert repos` (non-empty result). -/
def readPkgRepos (fs : FS) (reg : Registry) (fillter : String) : Except Err (List Repo) :=
  if reg.version ≠ PyVal.vfloat "0.1" then .error .schemaVersion
  else
    match mapE (Repo.mkE fs) reg.extensions with
    | .error e => .error e
    | .ok repos =>
      let repos := if fillter ≠ "" then repos.filter (fun r => r.pkg_name == fillter) else repos
      if repos.isEmpty then .error .notFound else .ok repos

/-- The resolution prefix of `install(pkg_name, exist_ok)`: the
already-installed guard, then `read_pkg_repos(pkg_name)[0]` — the FIRST
element of whatever the filtered catalog load returned. -/
def installResolve (fs : FS) (reg : Registry) (pkg_name : String) (exist_ok : Bool) :
    Except Err Repo :=
  if !exist_ok && (fs pkg_name).hasMeta then .error .alreadyInstalled
  else
    match readPkgRepos fs reg pkg_name with
    | .error e => .error e
    | .ok [] => .error .notFound
    | .ok (r :: _) => .ok r

/-- One entry of `os.listdir()` as `get_installed_exts` observes it: a
non-directory, a directory without `metadata.json`, or a directory whose
`metadata.json` exists with JSON content as in `DirState.meta`. -/
inductive LsEntry where
  | file (name : String)
  | dirNoMeta (name : String)
  | dirMeta (name : String) (meta : Option RawMeta)
deriving DecidableEq, Repr

/-- Parse the descriptor content of a `dirMeta` entry, as `read_local_meta`
does: JSON decode then `Metadata` construction, either failing fatally. -/
def readMetaContent (mj : Option RawMeta) : Except Err Metadata :=
  match mj with
  | none => .error .jsonDecode
  | some raw =>
    match Metadata.parse raw with
    | none => .error .validation
    | some m => .ok m

/-- `get_installed_exts()`: iterate the listing, `continue` past
non-directories and directories without a descriptor, and `read_local_meta`
every remaining one — with no exception handling around it. -/
def getInstalledExts : List LsEntry → Except Err (List Metadata)
  | [] => .ok []
  | .file _ :: rest => getInstalledExts rest
  | .dirNoMeta _ :: rest => getInstalledExts rest
  | .dirMeta _ mj :: rest =>
    match readMetaContent mj with
    | .error e => .error e
    | .ok m =>
      match getInstalledExts rest with
      | .error e => .error e
      | .ok ms => .ok (m :: ms)

/-- The update-collection loop of `list_repos`:
`update_avail = repo.installed and repo.installed_version != repo.version`,
appending each repo for which it holds. -/
def listReposUpdates : List Repo → List Repo
  | [] => []
  | r :: rest =>
    if r.installed && !(r.installed_version == r.version)
    then r :: listReposUpdates rest
    else listReposUpdates rest

/-- The ordered checkout candidate list of `install`, built by f-string
interpolation of `pkg_repo.version`. -/
def checkoutCandidates (version : String) : List String :=
  ["v" ++ version, version, "origin/" ++ version, "origin/v" ++ version, "origin/HEAD"]

/-- The checkout loop of `install`: run `git checkout` on each candidate ref
in order (`co ref` is the oracle for "the subprocess returned 0") and `break`
at the first success; `none` when the loop falls through with
`checkout_success` still false. -/
def tryCheckout (co : String → Bool) : List String → Option String
  | [] => none
  | ref :: rest => if co ref then some ref else tryCheckout co rest

/-- `COMMON_WEB_SERVER_USERS`, also inlined in `is_common_web_server_user`. -/
def COMMON_WEB_SERVER_USERS : List String := ["www-data", "httpd", "www", "apache"]

/-- What the permission-reconciliation observes of the process: `os.geteuid()`,
the `whoami` output, `sudo -n` availability, and an oracle for `chown_r`
success, applied to the `user`/`group`/`use_sudo` arguments `chown_r`
actually receives. -/
structure PermEnv where
  euid : Nat
  user : String
  sudoOk : Bool
  chownOk : String → String → Bool → Bool

/-- Outcome of `set_permissions`: `changed announced owner group` records the
candidate name the success message announces alongside the owner and group
that were actually passed to `chown -R owner:group`; `manual tried` is the
fall-through advisory (with whether a change was attempted and failed). -/
inductive PermOutcome where
  | noChangeNeeded
  | changed (announced owner group : String)
  | manual (tried : Bool)
deriving DecidableEq, Repr

/-- The chown loop of `set_permissions` over the candidate user names: each
iteration runs chown_r with arguments path, user, user and
use_sudo = not is_root — note the owner/group arguments are the CURRENT
user, not the loop variable `user_` — and returns at the first zero exit
code, announcing the loop variable. -/
def tryChownLoop (env : PermEnv) (is_root : Bool) : List String → Option String
  | [] => none
  | u :: rest =>
    if env.chownOk env.user env.user (!is_root) then some u
    else tryChownLoop env is_root rest

/-- `set_permissions(path)`: no-op when already a recognized web-server user;
otherwise, given sudo or root, run the chown loop and stop at the first
success; otherwise (or after the loop fails) advise manual intervention. -/
def set_permissions (env : PermEnv) : PermOutcome :=
  let is_root := env.euid == 0
  let is_web_user := env.user ∈ COMMON_WEB_SERVER_USERS
  if is_web_user then .noChangeNeeded
  else if env.sudoOk || is_root then
    match tryChownLoop env is_root COMMON_WEB_SERVER_USERS with
    | some u => .changed u env.user env.user
    | none => .manual true
  else .manual false

/-- External collaborators of one `install` run, as the spec's section 1
designates them: the git subprocesses as success oracles, the scratch clone's
descriptor content after checkout, and the copy/read primitives on the target
directory tree (of abstract content type `Tree`). -/
structure InstallEnv (Tree : Type) where
  fs : FS
  reg : Registry
  cacheCloned : Bool
  cloneOk : Bool
  fetchOk : Bool
  checkoutOk : String → Bool
  scratchMeta : Option RawMeta
  scratchTree : Tree
  copytree : Tree → Tree → Tree
  readTargetMeta : Tree → Option RawMeta

/-- Step 1 of `install`: clone when the cache lacks a git config file, fetch
otherwise; `check_returncode` raises on failure either way. -/
def cloneOrFetchOk {Tree : Type} (env : InstallEnv Tree) : Bool :=
  if !env.cacheCloned then env.cloneOk else env.fetchOk

/-- `install(pkg_name, exist_ok)` in full, threading the target directory's
contents: resolution (`installResolve`), the method == git assert, step 1
clone-or-fetch, step 2 the checkout candidate loop, step 3 `read_local_meta`
on the scratch clone's subdirectory, step 4 the recursive merge-copy onto the
target — the first and only mutation of the target directory — and step 5
the final `read_local_meta` on the target.  The result pairs the install
outcome with the final target contents. -/
def installRun {Tree : Type} (env : InstallEnv Tree) (pkg_name : String) (exist_ok : Bool)
    (target : Tree) : Except Err Metadata × Tree :=
  match installResolve env.fs env.reg pkg_name exist_ok with
  | .error e => (.error e, target)
  | .ok repo =>
    if repo.method ≠ "git" then (.error .unsupportedMethod, target)
    else if !cloneOrFetchOk env then (.error .gitOp, target)
    else
      match tryCheckout env.checkoutOk (checkoutCandidates repo.version.pyStr) with
      | none => (.error .versionResolution, target)
      | some _ =>
        match readMetaContent env.scratchMeta with
        | .error e => (.error e, target)
        | .ok _cached =>
          let target1 := env.copytree env.scratchTree target
          match readMetaContent (env.readTargetMeta target1) with
          | .error e => (.error e, target1)
          | .ok meta => (.ok meta, target1)

/-- The subprocess invocations the checkout loop actually makes: every
candidate up to and including the first successful one. -/
def checkoutAttempts (co : String → Bool) : List String → List String
  | [] => []
  | ref :: rest => if co ref then [ref] else ref :: checkoutAttempts co rest

/-- The spec's wording of the non-subdirectory branch of package-id
derivation: the URL path's last segment after stripping a trailing slash,
truncated at the first dot. -/
def pkgSegOfUrl (url : String) : String :=
  let p := pyRemoveSuffixSlash (urlparsePath url)
  String.mk ((pySplitChars ['.'] ((pySplitChars ['/'] p.data).getLastD [])).headD [])

/-- An empty local working directory: no package directory has any file. -/
def fsEmpty : FS := fun _ => {}

/-- A catalog row for the spec's `bar` example: git source at
`https://example.com/ext/bar.git`, no source subdirectory. -/
def rawBar : RawRepo :=
  { name := "Bar", entrypoint := "Bar", version := .vstr "1.0",
    url := "https://example.com/ext/bar.git", method := "git" }

/-- The `Repo` that `rawBar` constructs to over an empty working directory. -/
def repoBar : Repo :=
  { name := "Bar", author := "", description := "", version := .vstr "1.0",
    entrypoint := "Bar", type := "", url := "https://example.com/ext/bar.git",
    method := "git", directory := "", pkg_name := "bar", installed := false,
    installed_version := .vnone }

/-- A registry that lists the same row twice: a duplicated/stale catalog in
which `bar` is ambiguous. -/
def regDup : Registry := { version := .vfloat "0.1", extensions := [rawBar, rawBar] }

/-- A registry with the single `bar` row. -/
def regOne : Registry := { version := .vfloat "0.1", extensions := [rawBar] }

/-- A descriptor mapping with an empty `entrypoint`: fails validation. -/
def rawMetaBad : RawMeta := { name := some (.vstr "Bad"), entrypoint := some (.vstr "") }

/-- A well-formed descriptor mapping. -/
def rawMetaGood : RawMeta := { name := some (.vstr "Good"), entrypoint := some (.vstr "Good") }

/-- A working directory in which `bar` is installed (both files present) but
its on-disk descriptor fails validation. -/
def fsBadBar : FS := fun d =>
  if d = "bar" then { hasMeta := true, hasMain := true, meta := some rawMetaBad } else {}

/-- `rawBar` with a numeric (integer) catalog version. -/
def rawBarInt : RawRepo := { rawBar with version := .vint 7 }

/-- The `Repo` that `rawBarInt` constructs to over an empty working
directory: the version is normalized to the string form. -/
def repoBarInt : Repo := { repoBar with version := .vstr "7" }

/-- A catalog entry as it stands after reconciliation finds an upgrade: the
spec's example with installed version 1.0 against catalog version 1.1. -/
def repoUpExample : Repo :=
  { repoBar with
    version := .vstr "1.1",
    installed := true,
    installed_version := .vstr "1.0" }

/-- The same entry with matching version strings: current, not upgradable. -/
def repoCurExample : Repo :=
  { repoUpExample with version := .vstr "1.0" }

/-- A checkout oracle under which only `origin/HEAD` exists. -/
def coHeadOnly : String → Bool := fun ref => ref == "origin/HEAD"

/-- A root process environment whose `chown` invocations always succeed. -/
def permEnvRoot : PermEnv :=
  { euid := 0, user := "root", sudoOk := false, chownOk := fun _ _ _ => true }

/-- An install environment over `Tree := Nat` in which the clone fails and
every copy would bump the target, making any mutation observable. -/
def envCloneFails : InstallEnv Nat :=
  { fs := fsEmpty, reg := regOne, cacheCloned := false, cloneOk := false,
    fetchOk := true, checkoutOk := fun _ => true, scratchMeta := some rawMetaGood,
    scratchTree := 0, copytree := fun _ t => t + 1, readTargetMeta := fun _ => some rawMetaGood }

/-- The record `rawMetaGood` parses to. -/
def metaGood : Metadata := { name := .vstr "Good", entrypoint := .vstr "Good" }

/-- A descriptor mapping whose `type` key is present but the empty string. -/
def rawMetaEmptyType : RawMeta :=
  { name := some (.vstr "a"), entrypoint := some (.vstr "b"), type := some (.vstr "") }

lemma tryCheckout_eq_none_iff (co : String → Bool) (l : List String) :
    tryCheckout co l = none ↔ ∀ r ∈ l, co r = false := by
  induction l with
  | nil => simp [tryCheckout]
  | cons x xs ih =>
    by_cases hx : co x = true
    · simp [tryCheckout, hx]
    · simp only [Bool.not_eq_true] at hx
      simp [tryCheckout, hx, ih]

lemma tryCheckout_eq_some_spec (co : String → Bool) :
    ∀ (l : List String) (r : String), tryCheckout co l = some r →
      co r = true ∧ ∃ pre post, l = pre ++ r :: post ∧ (∀ x ∈ pre, co x = false)
        ∧ checkoutAttempts co l = pre ++ [r] := by
  intro l
  induction l with
  | nil => intro r h; simp [tryCheckout] at h
  | cons x xs ih =>
    intro r h
    by_cases hx : co x = true
    · rw [tryCheckout, if_pos hx] at h
      obtain rfl : x = r := by injection h
      exact ⟨hx, [], xs, rfl, by simp, by rw [checkoutAttempts, if_pos hx]; rfl⟩
    · simp only [Bool.not_eq_true] at hx
      rw [tryCheckout, if_neg (by simp [hx])] at h
      obtain ⟨hcor, pre, post, heq, hpre, hatt⟩ := ih r h
      refine ⟨hcor, x :: pre, post, by rw [List.cons_append, heq], ?_, ?_⟩
      · intro y hy
        rcases List.mem_cons.mp hy with h1 | h2
        · exact h1 ▸ hx
        · exact hpre y h2
      · rw [checkoutAttempts, if_neg (by simp [hx]), hatt]; rfl

/-- C1 (counterexample): with a duplicated registry in which two entries
derive the same packageId `bar`, the resolution step of `install` does NOT
fail: the filtered catalog load returns both matches and `[0]` silently picks
the first. -/
theorem C1_counterexample_duplicate_silently_picked :
    readPkgRepos fsEmpty regDup "bar" = .ok [repoBar, repoBar]
    ∧ installResolve fsEmpty regDup "bar" false = .ok repoBar :=
  ⟨rfl, rfl⟩

/-- C2 (code evaluated at the failing input): running as root (not a
web-server account) with a chown that always succeeds, the reconciler stops at
the first loop iteration ANNOUNCING `www-data:www-data`, but the owner and
group actually passed to `chown -R` are the current user `root` — which is
not a candidate web-server account.  The loop variable `user_` is never
passed to `chown_r`. -/
theorem C2_chown_targets_current_user_not_candidate :
    set_permissions permEnvRoot = .changed "www-data" "root" "root"
    ∧ "root" ∉ COMMON_WEB_SERVER_USERS :=
  ⟨rfl, by decide⟩

/-- C4: the version-resolution step tries exactly the ordered candidates
v{version}, {version}, origin/{version}, origin/v{version}, origin/HEAD;
it fails iff every candidate's checkout fails, and on success the returned
ref is the first succeeding candidate, every earlier candidate having failed
and no later candidate having been attempted (the attempt trace ends at the
first success). -/
theorem C4_checkout_fallback_order (co : String → Bool) (v : String) :
    (tryCheckout co (checkoutCandidates v) = none ↔
      ∀ r ∈ checkoutCandidates v, co r = false)
    ∧ (∀ r, tryCheckout co (checkoutCandidates v) = some r →
        co r = true ∧ ∃ pre post, checkoutCandidates v = pre ++ r :: post
          ∧ (∀ x ∈ pre, co x = false)
          ∧ checkoutAttempts co (checkoutCandidates v) = pre ++ [r]) :=
  ⟨tryCheckout_eq_none_iff co (checkoutCandidates v),
   fun r h => tryCheckout_eq_some_spec co (checkoutCandidates v) r h⟩

/-- Witness for C4 at the spec's own example: only `origin/HEAD` exists, the
loop succeeds with it. -/
theorem C4_checkout_fallback_order_witness :
    tryCheckout coHeadOnly (checkoutCandidates "2.0") = some "origin/HEAD"
    ∧ coHeadOnly "origin/HEAD" = true :=
  ⟨rfl, ((C4_checkout_fallback_order coHeadOnly "2.0").2 "origin/HEAD" rfl).1⟩

/-- C5: packageId derivation — a `sourceSubdirectory` starting with
`xExtension-` is used verbatim regardless of URL; otherwise the result is the
URL path's last segment after stripping a trailing slash, truncated at the
first dot (so the `bar.git` example yields `bar`), and derivation fails
exactly when that segment is empty or `"."`. -/
theorem C5_pkg_id_derivation :
    (∀ url directory : String, pyStartsWith directory "xExtension-" = true →
        generatePkgName url directory = .ok directory)
    ∧ generatePkgName "https://example.com/ext/bar.git" "" = .ok "bar"
    ∧ (∀ url directory : String, pyStartsWith directory "xExtension-" = false →
        generatePkgName url directory =
          (if pkgSegOfUrl url = "" ∨ pkgSegOfUrl url = "." then .error .pkgName
           else .ok (pkgSegOfUrl url))) := by
  refine ⟨?_, rfl, ?_⟩
  · intro url dir h
    have hne : ¬(dir = "" ∨ dir = ".") := by
      rintro (rfl | rfl) <;> exact absurd h (by decide)
    simp [generatePkgName, h, hne]
  · intro url dir h
    simp [generatePkgName, pkgSegOfUrl, h]

/-- Witness for C5: a subdirectory with the literal prefix wins over any URL. -/
theorem C5_pkg_id_derivation_witness :
    pyStartsWith "xExtension-Foo" "xExtension-" = true
    ∧ generatePkgName "https://example.com/whatever.git" "xExtension-Foo" =
        .ok "xExtension-Foo" :=
  ⟨rfl, C5_pkg_id_derivation.1 "https://example.com/whatever.git" "xExtension-Foo" rfl⟩

/-- C6 (counterexample): a mapping whose `type` field is present and equal to
the empty string — hence not in the two-element set — is nevertheless
accepted: the membership assert is guarded by `if self.type`, which skips the
check for every falsy value. -/
theorem C6_counterexample_empty_type_accepted :
    (Metadata.parse rawMetaEmptyType).isSome = true
    ∧ rawMetaEmptyType.type = some (.vstr "")
    ∧ PyVal.vstr "" ∉ [PyVal.vstr "system", PyVal.vstr "user"] :=
  ⟨rfl, rfl, by decide⟩

/-- C6 (amended): parsing succeeds iff `name` and `entrypoint` are present
and truthy (non-empty) and the `kind`/`type` field, WHEN TRUTHY, is in
{system, user} — a present but falsy `type` (e.g. the empty string) skips the
membership check; on success `name` and `entrypoint` are truthy. -/
theorem C6_parse_success_iff (raw : RawMeta) :
    ((Metadata.parse raw).isSome = true ↔
      (raw.name.getD .vnone).truthy = true ∧ (raw.entrypoint.getD .vnone).truthy = true ∧
        ((raw.type.getD .vnone).truthy = true →
          raw.type.getD .vnone = .vstr "system" ∨ raw.type.getD .vnone = .vstr "user"))
    ∧ ∀ m, Metadata.parse raw = some m →
        m.name.truthy = true ∧ m.entrypoint.truthy = true := by
  constructor
  · cases hn : raw.name with
    | none => simp [Metadata.parse, hn, PyVal.truthy]
    | some nm =>
      cases he : raw.entrypoint with
      | none => simp [Metadata.parse, hn, he, PyVal.truthy]
      | some ep =>
        simp only [Metadata.parse, hn, he, Option.getD_some]
        by_cases h1 : nm.truthy = true
        · by_cases h2 : ep.truthy = true
          · by_cases h3 : (raw.type.getD .vnone).truthy = true
            · simp [h1, h2, h3]
            · simp only [Bool.not_eq_true] at h3
              simp [h1, h2, h3]
          · simp only [Bool.not_eq_true] at h2
            simp [h1, h2]
        · simp only [Bool.not_eq_true] at h1
          simp [h1]
  · intro m hm
    cases hn : raw.name with
    | none => simp [Metadata.parse, hn] at hm
    | some nm =>
      cases he : raw.entrypoint with
      | none => simp [Metadata.parse, hn, he] at hm
      | some ep =>
        simp only [Metadata.parse, hn, he] at hm
        by_cases h12 : (nm.truthy && ep.truthy) = true
        · have h12' := h12
          simp only [Bool.and_eq_true] at h12'
          rw [if_pos h12] at hm
          split_ifs at hm
          all_goals
            obtain rfl : _ = m := Option.some.inj hm
            exact ⟨h12'.1, h12'.2⟩
        · rw [if_neg h12] at hm
          cases hm

/-- Witness for C6 (amended) at a well-formed mapping without a `type` key. -/
theorem C6_parse_success_iff_witness :
    (Metadata.parse rawMetaGood).isSome = true
    ∧ metaGood.name.truthy = true := by
  refine ⟨(C6_parse_success_iff rawMetaGood).1.mpr ?_, ?_⟩
  · exact ⟨rfl, rfl, fun h => absurd h (by decide)⟩
  · exact ((C6_parse_success_iff rawMetaGood).2 metaGood rfl).1

/-- C7: the reconciliation loop collects exactly the entries with
`installed = true` whose `installed_version` differs from `version` as a
value (plain inequality, no semantic-version comparison); the spec's 1.0
versus 1.1 example is upgradable and its string-equal variant is not. -/
theorem C7_upgradable_exact :
    (∀ (repos : List Repo) (r : Repo),
      r ∈ listReposUpdates repos ↔
        r ∈ repos ∧ r.installed = true ∧ r.installed_version ≠ r.version)
    ∧ listReposUpdates [repoUpExample, repoCurExample] = [repoUpExample] := by
  constructor
  · intro repos r
    induction repos with
    | nil => simp [listReposUpdates]
    | cons x xs ih =>
      by_cases hx : (x.installed && !(x.installed_version == x.version)) = true
      · have hx' : x.installed = true ∧ x.installed_version ≠ x.version := by
          simpa using hx
        rw [listReposUpdates, if_pos hx]
        simp only [List.mem_cons, ih]
        constructor
        · rintro (rfl | ⟨hmem, hP⟩)
          · exact ⟨Or.inl rfl, hx'⟩
          · exact ⟨Or.inr hmem, hP⟩
        · rintro ⟨rfl | hmem, hP⟩
          · exact Or.inl rfl
          · exact Or.inr ⟨hmem, hP⟩
      · have hx' : ¬(x.installed = true ∧ x.installed_version ≠ x.version) := by
          intro hc
          exact hx (by simp [hc.1, hc.2])
        rw [listReposUpdates, if_neg hx]
        simp only [List.mem_cons, ih]
        constructor
        · rintro ⟨hmem, hP⟩
          exact ⟨Or.inr hmem, hP⟩
        · rintro ⟨rfl | hmem, hP⟩
          · exact absurd hP hx'
          · exact ⟨hmem, hP⟩
  · rfl

/-- C9: a catalog entry whose raw `version` field is numeric is normalized at
construction to the `str()` form of that number (for an integer its decimal
string, for a float its shortest-repr decimal string), so reconciliation's
`installed_version != version` never sees a numeric catalog version. -/
theorem C9_numeric_version_normalized (fs : FS) (raw : RawRepo) (r : Repo)
    (h : Repo.mkE fs raw = .ok r) :
    (∀ n : Int, raw.version = .vint n → r.version = .vstr (toString n))
    ∧ (∀ s : String, raw.version = .vfloat s → r.version = .vstr s) := by
  have hv : r.version = raw.version.normNum := by
    rw [Repo.mkE] at h
    cases hg : generatePkgName raw.url raw.directory with
    | error e => rw [hg] at h; cases h
    | ok pkg =>
      rw [hg] at h
      dsimp only at h
      split at h
      · split at h
        · cases h
        · obtain rfl : _ = r := Except.ok.inj h
          rfl
      · obtain rfl : _ = r := Except.ok.inj h
        rfl
  exact ⟨fun n hn => by rw [hv, hn]; rfl, fun s hs => by rw [hv, hs]; rfl⟩

/-- Witness for C9: the integer catalog version 7 becomes the string 7. -/
theorem C9_numeric_version_normalized_witness :
    Repo.mkE fsEmpty rawBarInt = .ok repoBarInt ∧ repoBarInt.version = .vstr "7" :=
  ⟨rfl, (C9_numeric_version_normalized fsEmpty rawBarInt repoBarInt rfl).1 7 rfl⟩

/-- C1 (amended): over a well-formed catalog, resolution fails with
`NotFoundError` exactly when NO entry matches the requested packageId; when
one or more entries match, the FIRST matching entry in catalog order is
returned — an ambiguous (duplicated) registry is not rejected. -/
theorem C1_resolve_returns_first_match (fs : FS) (reg : Registry) (pkg : String)
    (repos : List Repo)
    (hv : reg.version = PyVal.vfloat "0.1")
    (hm : mapE (Repo.mkE fs) reg.extensions = .ok repos)
    (hp : pkg ≠ "")
    (hn : (fs pkg).hasMeta = false) :
    (installResolve fs reg pkg false = .error Err.notFound ↔
      repos.filter (fun r => r.pkg_name == pkg) = [])
    ∧ ∀ r rest, repos.filter (fun r => r.pkg_name == pkg) = r :: rest →
        installResolve fs reg pkg false = .ok r := by
  have hread : readPkgRepos fs reg pkg =
      (if (repos.filter (fun r => r.pkg_name == pkg)).isEmpty
       then Except.error Err.notFound
       else Except.ok (repos.filter (fun r => r.pkg_name == pkg))) := by
    unfold readPkgRepos
    rw [if_neg (by simp [hv]), hm]
    dsimp only
    rw [if_pos hp]
  have hres : installResolve fs reg pkg false =
      (match repos.filter (fun r => r.pkg_name == pkg) with
       | [] => Except.error Err.notFound
       | r :: _ => Except.ok r) := by
    unfold installResolve
    rw [if_neg (by simp [hn]), hread]
    cases hc : repos.filter (fun r => r.pkg_name == pkg) with
    | nil => simp
    | cons r rest => simp
  constructor
  · rw [hres]
    cases hc : repos.filter (fun r => r.pkg_name == pkg) with
    | nil => simp
    | cons r rest => simp
  · intro r rest hfr
    rw [hres, hfr]

/-- Witness for C1 (amended): the duplicated `bar` registry resolves to the
first copy. -/
theorem C1_resolve_returns_first_match_witness :
    mapE (Repo.mkE fsEmpty) regDup.extensions = .ok [repoBar, repoBar]
    ∧ installResolve fsEmpty regDup "bar" false = .ok repoBar :=
  ⟨rfl, (C1_resolve_returns_first_match fsEmpty regDup "bar" [repoBar, repoBar]
          rfl rfl (by decide) rfl).2 repoBar [repoBar] rfl⟩

/-- C3 (counterexample): a scan over a directory containing one extension
with an invalid descriptor (empty entrypoint) followed by one fully parseable
extension does NOT skip the bad entry and return the good one: it aborts with
the validation error. -/
theorem C3_counterexample_scan_aborts :
    getInstalledExts
        [LsEntry.dirMeta "bad" (some rawMetaBad), LsEntry.dirMeta "good" (some rawMetaGood)]
      = .error Err.validation
    ∧ (Metadata.parse rawMetaGood).isSome = true
    ∧ Metadata.parse rawMetaBad = none :=
  ⟨rfl, rfl, rfl⟩

/-- C3 (amended): the Installed-Set Scanner silently skips only
non-directories and directories without a descriptor file; a directory whose
descriptor exists but fails to decode or validate aborts the whole scan with
that error (the remaining entries contribute nothing). -/
theorem C3_scan_abort_and_skip :
    (∀ (ls : List LsEntry) (name : String) (mj : Option RawMeta) (e : Err),
      LsEntry.dirMeta name mj ∈ ls → readMetaContent mj = .error e →
        ∃ e2, getInstalledExts ls = .error e2)
    ∧ (∀ (name : String) (rest : List LsEntry),
        getInstalledExts (LsEntry.file name :: rest) = getInstalledExts rest
        ∧ getInstalledExts (LsEntry.dirNoMeta name :: rest) = getInstalledExts rest) := by
  constructor
  · intro ls
    induction ls with
    | nil => intro name mj e hmem _; simp at hmem
    | cons x xs ih =>
      intro name mj e hmem hbad
      rcases List.mem_cons.mp hmem with rfl | hmem2
      · exact ⟨e, by rw [getInstalledExts, hbad]⟩
      · cases x with
        | file n => exact ih name mj e hmem2 hbad
        | dirNoMeta n => exact ih name mj e hmem2 hbad
        | dirMeta n mj2 =>
          cases hr : readMetaContent mj2 with
          | error e3 => exact ⟨e3, by rw [getInstalledExts, hr]⟩
          | ok m =>
            obtain ⟨e2, he2⟩ := ih name mj e hmem2 hbad
            exact ⟨e2, by rw [getInstalledExts, hr, he2]⟩
  · intro name rest
    exact ⟨rfl, rfl⟩

/-- Witness for C3 (amended) at a one-entry listing with a bad descriptor. -/
theorem C3_scan_abort_and_skip_witness :
    isOkE (getInstalledExts [LsEntry.dirMeta "bad" (some rawMetaBad)]) = false := by
  obtain ⟨e2, he2⟩ := C3_scan_abort_and_skip.1 [LsEntry.dirMeta "bad" (some rawMetaBad)]
    "bad" (some rawMetaBad) Err.validation (by simp) rfl
  rw [he2]
  rfl

lemma mapE_isOk_false_of_mem {α β : Type} (f : α → Except Err β) :
    ∀ (xs : List α) (x : α), x ∈ xs → isOkE (f x) = false → isOkE (mapE f xs) = false := by
  intro xs
  induction xs with
  | nil => intro x hx; simp at hx
  | cons y ys ih =>
    intro x hx hbad
    rcases List.mem_cons.mp hx with rfl | hx2
    · cases hf : f x with
      | error e => rw [mapE, hf]; rfl
      | ok v => rw [hf] at hbad; simp [isOkE] at hbad
    · cases hf : f y with
      | error e => rw [mapE, hf]; rfl
      | ok v =>
        have hys := ih x hx2 hbad
        cases hg : mapE f ys with
        | error e => rw [mapE, hf, hg]; rfl
        | ok l => rw [hg] at hys; simp [isOkE] at hys

/-- C10: if an installed extension directory named by a catalog entry has
both files present but an on-disk descriptor that fails validation, then
constructing that entry fails, catalog loading (`read_pkg_repos`) fails as a
whole for every filter, and the resolution prefix of every command that loads
the catalog fails — one bad installed extension aborts them all. -/
theorem C10_bad_installed_descriptor_aborts_load
    (fs : FS) (reg : Registry) (raw : RawRepo) (pkg : String)
    (hmem : raw ∈ reg.extensions)
    (hpkg : generatePkgName raw.url raw.directory = .ok pkg)
    (hme : (fs pkg).hasMeta = true) (hma : (fs pkg).hasMain = true)
    (hbad : readLocalMetaFS fs pkg = .error Err.validation) :
    Repo.mkE fs raw = .error Err.validation
    ∧ (∀ f, isOkE (readPkgRepos fs reg f) = false)
    ∧ (∀ p eo, isOkE (installResolve fs reg p eo) = false) := by
  have h1 : Repo.mkE fs raw = .error Err.validation := by
    unfold Repo.mkE
    rw [hpkg]
    dsimp only
    rw [hme, hma]
    simp only [Bool.and_self, if_true, hbad]
  have h2 : ∀ f, isOkE (readPkgRepos fs reg f) = false := by
    intro f
    by_cases hv : reg.version ≠ PyVal.vfloat "0.1"
    · unfold readPkgRepos
      rw [if_pos hv]
      rfl
    · unfold readPkgRepos
      rw [if_neg hv]
      have hmap := mapE_isOk_false_of_mem (Repo.mkE fs) reg.extensions raw hmem
        (by rw [h1]; rfl)
      cases hg : mapE (Repo.mkE fs) reg.extensions with
      | error e => rfl
      | ok l => rw [hg] at hmap; simp [isOkE] at hmap
  refine ⟨h1, h2, ?_⟩
  intro p eo
  unfold installResolve
  by_cases hai : (!eo && (fs p).hasMeta) = true
  · rw [if_pos hai]
    rfl
  · rw [if_neg hai]
    have hp2 := h2 p
    cases hg : readPkgRepos fs reg p with
    | error e => rfl
    | ok l => rw [hg] at hp2; simp [isOkE] at hp2

/-- Witness for C10: the one-entry `bar` registry over a filesystem where
`bar` is installed with an invalid descriptor. -/
theorem C10_bad_installed_descriptor_aborts_load_witness :
    isOkE (readPkgRepos fsBadBar regOne "") = false
    ∧ isOkE (installResolve fsBadBar regOne "bar" false) = false := by
  obtain ⟨h1, h2, h3⟩ := C10_bad_installed_descriptor_aborts_load fsBadBar regOne rawBar "bar"
    (by simp [regOne]) rfl rfl rfl rfl
  exact ⟨h2 "", h3 "bar" false⟩

/-- C8: a failure of step 1 (clone-or-fetch), step 2 (every checkout
candidate fails) or step 3 (the scratch clone's descriptor does not
validate) aborts the install with an error, and the target directory's
contents after the call are exactly what they were before it — the
merge-copy of step 4 is the only mutation of the target and is never reached
through those failures. -/
theorem C8_failures_before_copy_leave_target_unchanged {Tree : Type}
    (env : InstallEnv Tree) (pkg : String) (eo : Bool) (target : Tree)
    (h : cloneOrFetchOk env = false
       ∨ (∀ v : String, tryCheckout env.checkoutOk (checkoutCandidates v) = none)
       ∨ isOkE (readMetaContent env.scratchMeta) = false) :
    isOkE (installRun env pkg eo target).1 = false
    ∧ (installRun env pkg eo target).2 = target := by
  unfold installRun
  cases hres : installResolve env.fs env.reg pkg eo with
  | error e => exact ⟨rfl, rfl⟩
  | ok repo =>
    dsimp only
    by_cases hmth : repo.method ≠ "git"
    · rw [if_pos hmth]
      exact ⟨rfl, rfl⟩
    · rw [if_neg hmth]
      by_cases hcf : cloneOrFetchOk env = true
      · rw [if_neg (by simp [hcf])]
        cases hco : tryCheckout env.checkoutOk (checkoutCandidates repo.version.pyStr) with
        | none => exact ⟨rfl, rfl⟩
        | some ref =>
          rcases h with h1 | h2 | h3
          · rw [h1] at hcf; cases hcf
          · rw [h2 repo.version.pyStr] at hco; cases hco
          · cases hsm : readMetaContent env.scratchMeta with
            | error e => exact ⟨rfl, rfl⟩
            | ok m => rw [hsm] at h3; simp [isOkE] at h3
      · simp only [Bool.not_eq_true] at hcf
        rw [if_pos (by simp [hcf])]
        exact ⟨rfl, rfl⟩

/-- Witness for C8: with a failing clone and a copy primitive that visibly
bumps a numeric target, the target is untouched. -/
theorem C8_failures_before_copy_witness :
    cloneOrFetchOk envCloneFails = false ∧ (installRun envCloneFails "bar" false 0).2 = 0 :=
  ⟨rfl, (C8_failures_before_copy_leave_target_unchanged envCloneFails "bar" false 0
          (Or.inl rfl)).2⟩

